import Mathlib

/-!
Verification of the redis-cache repository (src/redis_cache/cache.py) against
its natural-language specification.

The development is a shallow embedding of the cache logic:

* Python values are modelled by the inductive `PyVal` (None, bool, int, str,
  list, tuple, dict with string keys) together with Python's truthiness,
  `len`, `str`/`repr` and JSON encoding.
* The remote Redis store is modelled as an association list from fully
  qualified redis keys to (decoded value, ttl) pairs; the serializer binding
  is folded away on the store side (the spec's round-trip contract
  decode(encode(v)) = v), while every invocation of the serializer is still
  recorded as an explicit `Event.serialize` in an event trace.
* Every cache operation returns its Python result together with the new store
  and the trace of externally visible actions (lock acquire/release, store
  reads and writes, serializer calls, invocations of a wrapped function), so
  that claims about "no lock is taken", "the lock is still released" or "no
  serialization is attempted" are directly statable.
* The memoizer produced by `Cache.keep` is modelled by `Cache.memoizer`,
  which takes two store snapshots: `st1`, the store at the unlocked first
  read, and `st2`, the store observed once the write lock is held.  The two
  snapshots model the interleaving point that the double-checked protocol
  exists for (a concurrent caller may write the key between the two reads);
  a sequential run is the special case `st1 = st2`.

External collaborators (the redis_structures.RedisMap base class, the
redis_lock.Lock class, the vital helper functions and the json module) are
not part of this repository; their behaviour is modelled from the spec's
interface descriptions (spec sections 3, 4.1, 4.3, 6) and from the
repository's own unit tests, as noted on each definition.
-/

namespace RedisCache

/-- Python values, as far as the cache logic inspects them: `None`, booleans,
integers, strings, lists, tuples and string-keyed dicts. -/
inductive PyVal where
  | pynone : PyVal
  | pybool : Bool → PyVal
  | pyint : Int → PyVal
  | pystr : String → PyVal
  | pylist : List PyVal → PyVal
  | pytuple : List PyVal → PyVal
  | pydict : List (String × PyVal) → PyVal

/-- Python's `value is None` test. -/
def isNone : PyVal → Bool
  | PyVal.pynone => true
  | _ => false

/-- Whether the Python value has a `__len__` (strings, lists, tuples, dicts). -/
def hasLen : PyVal → Bool
  | PyVal.pystr _ => true
  | PyVal.pylist _ => true
  | PyVal.pytuple _ => true
  | PyVal.pydict _ => true
  | _ => false

/-- Python's `len` on values that have one (0 otherwise; the code only calls
it guarded by `hasLen`). -/
def pyLen : PyVal → Nat
  | PyVal.pystr s => s.length
  | PyVal.pylist xs => xs.length
  | PyVal.pytuple xs => xs.length
  | PyVal.pydict kvs => kvs.length
  | _ => 0

/-- Python truthiness of a value. -/
def truthy : PyVal → Bool
  | PyVal.pynone => false
  | PyVal.pybool b => b
  | PyVal.pyint n => n != 0
  | PyVal.pystr s => s.length != 0
  | PyVal.pylist xs => !xs.isEmpty
  | PyVal.pytuple xs => !xs.isEmpty
  | PyVal.pydict kvs => !kvs.isEmpty

mutual

/-- Python `repr` of a value (string escaping inside `repr` of a string is
not modelled; no claim depends on it). -/
def pyRepr : PyVal → String
  | PyVal.pynone => "None"
  | PyVal.pybool b => if b then "True" else "False"
  | PyVal.pyint n => toString n
  | PyVal.pystr s => "'" ++ s ++ "'"
  | PyVal.pylist xs => "[" ++ pyReprSeq xs ++ "]"
  | PyVal.pytuple [] => "()"
  | PyVal.pytuple [x] => "(" ++ pyRepr x ++ ",)"
  | PyVal.pytuple xs => "(" ++ pyReprSeq xs ++ ")"
  | PyVal.pydict kvs => "\x7b" ++ pyReprDict kvs ++ "\x7d"

/-- Comma-separated `repr`s of the elements of a sequence. -/
def pyReprSeq : List PyVal → String
  | [] => ""
  | [x] => pyRepr x
  | x :: rest => pyRepr x ++ ", " ++ pyReprSeq rest

/-- Comma-separated `'key': repr(value)` entries of a dict. -/
def pyReprDict : List (String × PyVal) → String
  | [] => ""
  | [(k, v)] => "'" ++ k ++ "': " ++ pyRepr v
  | (k, v) :: rest => "'" ++ k ++ "': " ++ pyRepr v ++ ", " ++ pyReprDict rest

end

/-- Python `str` of a value: the string itself for strings, `repr` otherwise
(which coincides with `str` on None, bools, ints and containers). -/
def pyStr : PyVal → String
  | PyVal.pystr s => s
  | v => pyRepr v

mutual

/-- Modelled from the spec: the default structured-text serializer (the
`json` module, spec section 4.2/6), used by `Cache.keep` when the cache has
no serializer bound.  Mirrors `json.dumps` with its default separators. -/
def jsonDumps : PyVal → String
  | PyVal.pynone => "null"
  | PyVal.pybool b => if b then "true" else "false"
  | PyVal.pyint n => toString n
  | PyVal.pystr s => "\"" ++ s ++ "\""
  | PyVal.pylist xs => "[" ++ jsonSeq xs ++ "]"
  | PyVal.pytuple xs => "[" ++ jsonSeq xs ++ "]"
  | PyVal.pydict kvs => "\x7b" ++ jsonDict kvs ++ "\x7d"

/-- Comma-separated JSON encodings of the elements of a sequence. -/
def jsonSeq : List PyVal → String
  | [] => ""
  | [x] => jsonDumps x
  | x :: rest => jsonDumps x ++ ", " ++ jsonSeq rest

/-- Comma-separated `"key": value` JSON entries of a dict. -/
def jsonDict : List (String × PyVal) → String
  | [] => ""
  | [(k, v)] => "\"" ++ k ++ "\": " ++ jsonDumps v
  | (k, v) :: rest => "\"" ++ k ++ "\": " ++ jsonDumps v ++ ", " ++ jsonDict rest

end

/-- Python `s.rstrip(":")`: remove every trailing colon. -/
def rstrip_colon (s : String) : String :=
  String.mk ((s.data.reverse.dropWhile (fun ch => ch == ':')).reverse)

/-- The remote Redis store, modelled as an association list from fully
qualified redis keys to (decoded value, ttl) pairs.  A lookup returns the
most recent binding; an absent key models a redis nil reply. -/
abbrev Store := List (String × PyVal × Nat)

/-- Lookup of a fully qualified key in the store. -/
def storeGet : Store → String → Option PyVal
  | [], _ => Option.none
  | (k2, v, _) :: rest, k => if k2 = k then Option.some v else storeGet rest k

/-- Externally visible actions performed by a cache operation, in order. -/
inductive Event where
  | acquireLock : String → Event
  | releaseLock : String → Event
  | storeRead : String → Event
  | storeWrite : String → PyVal → Nat → Event
  | serialize : PyVal → Event
  | fnCall : Event

/-- Configuration of one `Cache` instance (cache.py, `Cache.__init__`).
`pfx` holds `self.prefix` (the constructor argument with trailing colons
stripped, see `Cache.init`), `ttl` holds `self._ttl`, `save_empty` holds
`self.save_empty`, `serialized` holds `self.serialized`, and `dumps` is the
bound serializer's encode function (`self._dumps` of the RedisMap base). -/
structure Cache where
  name : String
  pfx : String
  ttl : Nat
  save_empty : Bool
  serialized : Bool
  dumps : PyVal → String

/-- Construction of a `Cache` (cache.py lines 122-164): the stored prefix is
the argument with trailing colons stripped, `self.prefix = prefix.rstrip(":")`. -/
def Cache.init (name pfxArg : String) (ttl : Nat) (save_empty serialized : Bool)
    (dumps : PyVal → String) : Cache :=
  { name := name, pfx := rstrip_colon pfxArg, ttl := ttl,
    save_empty := save_empty, serialized := serialized, dumps := dumps }

/-- Modelled from the spec: `key_prefix = prefix + ":" + name` (spec section 3;
the attribute itself lives in the external RedisMap base class, and the usage
example in cache.py lines 95-103 shows the same composition). -/
def Cache.key_pfx (c : Cache) : String := c.pfx ++ ":" ++ c.name

/-- Modelled from the spec: `full_key(user_key) = key_prefix + ":" + str(user_key)`
(spec section 4.1; `get_key` of the external RedisMap base class, cf. the
usage example in cache.py line 102-103). -/
def Cache.get_key (c : Cache) (k : String) : String := c.key_pfx ++ ":" ++ k

/-- Redis key of the lock produced by `BaseCache.lock` (cache.py lines 43-60):
the code builds `keyname = key_prefix + ":" + name` and hands it to the
external `redis_lock.Lock`, which names its redis entry `"lock:" + keyname`
(asserted by the repository's own unit tests,
unit_tests/cache/Cache.py lines 50-60, and by spec section 4.1). -/
def Cache.lock_name (c : Cache) (n : String) : String :=
  "lock:" ++ (c.key_pfx ++ ":" ++ n)

/-- Lock key used by `BaseCache.read_lock` (cache.py lines 62-70):
`self.lock(name + ':read')`. -/
def Cache.read_lock_name (c : Cache) (n : String) : String :=
  c.lock_name (n ++ ":read")

/-- Lock key used by `BaseCache.write_lock` (cache.py lines 72-83):
`self.lock(name + ':write')`. -/
def Cache.write_lock_name (c : Cache) (n : String) : String :=
  c.lock_name (n ++ ":write")

/-- The skip test `Cache._skip` (cache.py lines 182-185): a value is skipped
when it is None or has zero length, and the cache does not save empties. -/
def Cache._skip (c : Cache) (v : PyVal) : Bool :=
  (isNone v || (hasLen v && pyLen v == 0)) && !c.save_empty

/-- Single-key read used by `Cache.get` with one key (cache.py lines 281-285):
`super().__getitem__(str(key))` returning the decoded value, with the
`KeyError` raised on a redis nil reply turned into the default. -/
def Cache.get_one (c : Cache) (st : Store) (k : String) (dflt : PyVal) : PyVal :=
  match storeGet st (c.get_key k) with
  | Option.some v => v
  | Option.none => dflt

/-- Modelled from the spec: the batched read `RedisMap.mget` (spec section
4.4, `get_many`): one ordered result per key, a redis nil decoded as None. -/
def Cache.mget (c : Cache) (st : Store) (keys : List String) : List PyVal :=
  keys.map (fun k => (storeGet st (c.get_key k)).getD PyVal.pynone)

/-- Result of `Cache.get`: a single value for zero or one key, a list of
values for two or more keys. -/
inductive GetRes where
  | one : PyVal → GetRes
  | many : List PyVal → GetRes

/-- The read operation `Cache.get` (cache.py lines 265-287).  With more than
one key it batches through `mget` and substitutes the default for None
results only when the default is truthy (`if default:`); with one key it
reads directly and returns the default on a `KeyError`; with no keys it
returns the default. -/
def Cache.get (c : Cache) (st : Store) (keys : List String) (dflt : PyVal) : GetRes :=
  if keys.length > 1 then
    let results := c.mget st keys
    if truthy dflt then
      GetRes.many (results.map (fun r => if isNone r then dflt else r))
    else
      GetRes.many results
  else
    match keys with
    | [k] => GetRes.one (c.get_one st k dflt)
    | _ => GetRes.one dflt

/-- Python result of `Cache.setex`: the literal `0` on a skipped empty value,
the truthy reply of the underlying `SETEX` on a write, or Python `None` when
the key was already present and nothing was written. -/
inductive PyRes where
  | zero : PyRes
  | ok : PyRes
  | noneR : PyRes

/-- The conditional write `Cache.setex` (cache.py lines 187-197): skip empty
values, then, under the write lock for the key, read the key and write only
if that read returned None; `super().setex` (the external RedisMap, spec
section 4.4) encodes the value and writes it with `ttl or self._ttl`. -/
def Cache.setex (c : Cache) (st : Store) (key : String) (value : PyVal) (ttl : Nat) :
    PyRes × Store × List Event :=
  if c._skip value then (PyRes.zero, st, [])
  else
    let lk := c.write_lock_name key
    let gk := c.get_key key
    let r := c.get_one st key PyVal.pynone
    if isNone r then
      let t := if ttl = 0 then c.ttl else ttl
      (PyRes.ok, (gk, value, t) :: st,
       [Event.acquireLock lk, Event.storeRead gk, Event.serialize value,
        Event.storeWrite gk value t, Event.releaseLock lk])
    else
      (PyRes.noneR, st, [Event.acquireLock lk, Event.storeRead gk, Event.releaseLock lk])

/-- Modelled from the spec: `pairwise` of the external vital.tools.lists —
consecutive non-overlapping pairs of the flat argument list, as shown by the
docstring example of `Cache.set` (cache.py lines 210-216). -/
def pairwise : List PyVal → List (PyVal × PyVal)
  | k :: v :: rest => (k, v) :: pairwise rest
  | _ => []

/-- Modelled from the spec: `flatten` of the external vital.tools.lists —
one level of flattening of a list of pairs, turning
`[(k1, v1), (k2, v2)]` into `[k1, v1, k2, v2]` (cache.py line 263). -/
def flatten : List (PyVal × PyVal) → List PyVal
  | [] => []
  | (k, v) :: rest => k :: v :: flatten rest

/-- Python result of `Cache.set`: the `setex` result for a single pair, the
pipeline reply list for several pairs, or a raised error. -/
inductive SetRes where
  | one : PyRes → SetRes
  | many : List Bool → SetRes
  | error : String → SetRes

/-- The pipelined branch of `Cache.set` (cache.py lines 220-229): for each
pair, values failing `_skip` are dropped; every kept value is encoded with
`self._dumps` and written unconditionally by the raw client `SETEX` with the
common ttl.  The single `pipe.execute` round trip is modelled as the
sequence of its writes. -/
def Cache.set_pipe (c : Cache) (st : Store) (pairs : List (PyVal × PyVal)) (t : Nat) :
    List Bool × Store × List Event :=
  match pairs with
  | [] => ([], st, [])
  | (k, v) :: rest =>
    if c._skip v then c.set_pipe st rest t
    else
      let gk := c.get_key (pyStr k)
      let out := c.set_pipe ((gk, v, t) :: st) rest t
      (true :: out.1, out.2.1, Event.serialize v :: Event.storeWrite gk v t :: out.2.2)

/-- The write operation `Cache.set` (cache.py lines 199-232) on positional
arguments: `ttl or self._ttl`, then the pipelined branch for more than two
flat arguments, and delegation to `Cache.setex` for a single key/value pair
(`k, v = kvs`).  A non-string key in the two-argument branch raises a
`TypeError` inside `write_lock` (string concatenation) unless the value was
skipped first; fewer than two arguments fail to unpack with a `ValueError`. -/
def Cache.set (c : Cache) (st : Store) (kvs : List PyVal) (ttl : Nat) :
    SetRes × Store × List Event :=
  let t := if ttl = 0 then c.ttl else ttl
  if kvs.length > 2 then
    let out := c.set_pipe st (pairwise kvs) t
    (SetRes.many out.1, out.2.1, out.2.2)
  else
    match kvs with
    | [PyVal.pystr k, v] =>
      let out := c.setex st k v t
      (SetRes.one out.1, out.2.1, out.2.2)
    | [_, v] =>
      if c._skip v then (SetRes.one PyRes.zero, st, [])
      else (SetRes.error "TypeError", st, [])
    | _ => (SetRes.error "ValueError", st, [])

/-- The convenience operation `Cache.update` (cache.py lines 234-263): apply
the ttl fallback, flatten the mapping items or pair sequence, and delegate
to `Cache.set`. -/
def Cache.update (c : Cache) (st : Store) (kvs : List (PyVal × PyVal)) (ttl : Nat) :
    SetRes × Store × List Event :=
  let t := if ttl = 0 then c.ttl else ttl
  c.set st (flatten kvs) t

/-- The argument serializer chosen by `Cache.keep` (cache.py lines 311-312):
`self._dumps if self._dumps and self.serialized else json.dumps`. -/
def Cache.keep_serializer (c : Cache) : PyVal → String :=
  if c.serialized then c.dumps else jsonDumps

/-- The prefix normalization of `Cache.keep` (cache.py line 313):
`prefix = "" if not prefix else prefix.rstrip(":") + ":"`. -/
def keep_pfx : Option String → String
  | Option.none => ""
  | Option.some p => if p.length = 0 then "" else rstrip_colon p ++ ":"

/-- The Python tuple `(args, kwargs)` passed to the argument serializer by
the memoizer (cache.py lines 318-319). -/
def argsKw (args : List PyVal) (kwargs : List (String × PyVal)) : PyVal :=
  PyVal.pytuple [PyVal.pytuple args, PyVal.pydict kwargs]

/-- The argument key computed by the memoizer (cache.py lines 318-319):
`serializer((args, kwargs))` when `serialize_args` is set, else
`str((args, kwargs))`. -/
def Cache.memo_argkey (c : Cache) (ser_args : Bool) (args : List PyVal)
    (kwargs : List (String × PyVal)) : String :=
  if ser_args then c.keep_serializer (argsKw args kwargs)
  else pyStr (argsKw args kwargs)

/-- The cache key computed by the memoizer (cache.py line 320):
`"{}{}:{}".format(prefix, format_obj_name(obj), argkey)`, with the function
identity produced by the external `format_obj_name` passed in as `fnName`. -/
def Cache.memo_key (c : Cache) (kpfx : Option String) (ser_args : Bool)
    (fnName : String) (args : List PyVal) (kwargs : List (String × PyVal)) : String :=
  keep_pfx kpfx ++ fnName ++ ":" ++ c.memo_argkey ser_args args kwargs

/-- One call of the memoized function produced by `Cache.keep` (cache.py
lines 315-334).  `kttl` is the decorator's ttl argument (0 standing for the
Python default None), `kpfx` its prefix override, `ser_args` its
serialize_args flag; `fn` is the wrapped computation, returning
`Except.error` when it raises.  `st1` is the store at the unlocked first
read and `st2` the store observed under the write lock (the double-check
window; a race-free run has `st1 = st2`).  The result is the Python return
value (or propagated exception), the final store, and the trace of actions. -/
def Cache.memoizer (c : Cache) (kttl : Nat) (kpfx : Option String) (ser_args : Bool)
    (fnName : String) (fn : List PyVal → List (String × PyVal) → Except String PyVal)
    (st1 st2 : Store) (args : List PyVal) (kwargs : List (String × PyVal)) :
    Except String PyVal × Store × List Event :=
  let key := c.memo_key kpfx ser_args fnName args kwargs
  let gk := c.get_key key
  let lk := c.write_lock_name key
  match storeGet st1 gk with
  | Option.some r => (Except.ok r, st1, [Event.storeRead gk])
  | Option.none =>
    let r := c.get_one st2 key PyVal.pynone
    if isNone r then
      match fn args kwargs with
      | Except.error e =>
        (Except.error e, st2,
         [Event.storeRead gk, Event.acquireLock lk, Event.storeRead gk,
          Event.fnCall, Event.releaseLock lk])
      | Except.ok rv =>
        if c._skip rv then
          (Except.ok rv, st2,
           [Event.storeRead gk, Event.acquireLock lk, Event.storeRead gk,
            Event.fnCall, Event.releaseLock lk])
        else
          let t := if kttl = 0 then c.ttl else kttl
          (Except.ok rv, (gk, rv, t) :: st2,
           [Event.storeRead gk, Event.acquireLock lk, Event.storeRead gk,
            Event.fnCall, Event.serialize rv, Event.storeWrite gk rv t,
            Event.releaseLock lk])
    else
      (Except.ok r, st2,
       [Event.storeRead gk, Event.acquireLock lk, Event.storeRead gk,
        Event.releaseLock lk])

/-- The key as claim C5 and spec section 4.5 word it: the override prefix,
when given, with trailing colons stripped and a colon appended, then the
function identity, a colon, and the serializer-encoded or stringified
`(args, kwargs)` pair.  Stated from the spec's words, to be compared with
`Cache.memo_key`, which is translated from the source. -/
def spec_memo_key (c : Cache) (kpfx : Option String) (ser_args : Bool)
    (fnName : String) (args : List PyVal) (kwargs : List (String × PyVal)) : String :=
  (match kpfx with
   | Option.some p => rstrip_colon p ++ ":"
   | Option.none => "")
  ++ fnName ++ ":"
  ++ (if ser_args then c.keep_serializer (argsKw args kwargs)
      else pyStr (argsKw args kwargs))

/-- A concrete cache used by the witnesses: the default configuration of the
usage example in cache.py (name "1", prefix "redis-cache:bucket", ttl 300,
empties not saved, JSON serialization). -/
def c0 : Cache := Cache.init "1" "redis-cache:bucket" 300 false true jsonDumps

/-- A concrete store holding an old value for user key "k" of `c0`. -/
def st0 : Store := [(c0.get_key "k", PyVal.pystr "old", 300)]

/-- A wrapped computation that always raises. -/
def fnErr : List PyVal → List (String × PyVal) → Except String PyVal :=
  fun _ _ => Except.error "boom"

/-- A wrapped computation that returns a constant non-empty value. -/
def fnConst : List PyVal → List (String × PyVal) → Except String PyVal :=
  fun _ _ => Except.ok (PyVal.pystr "computed")

/-- A concrete store in which the memoization key of `fnConst` under `c0`
(no prefix override, serialized arguments, empty argument tuple) is already
bound. -/
def stHit : Store :=
  [(c0.get_key (c0.memo_key Option.none true "f" [] []), PyVal.pystr "v", 300)]

/-- Characterization of the Python `is None` test on the model. -/
theorem isNone_iff (v : PyVal) : isNone v = true ↔ v = PyVal.pynone := by
  cases v <;> simp [isNone]

/-- A value other than None fails the `is None` test. -/
theorem isNone_eq_false (v : PyVal) (h : v ≠ PyVal.pynone) : isNone v = false := by
  cases v
  · exact absurd rfl h
  all_goals rfl

/-- C6: for every lock name `n`, `read_lock(n)` locks the redis key
`"lock:" ++ key_prefix ++ ":" ++ n ++ ":read"` and `write_lock(n)` locks
`"lock:" ++ key_prefix ++ ":" ++ n ++ ":write"`; the two roles for the same
logical name always yield distinct lock keys, so a read-side acquisition
never contends with a write-side acquisition of the same name. -/
theorem C6_lock_keys (c : Cache) (n : String) :
    c.read_lock_name n = "lock:" ++ c.key_pfx ++ ":" ++ n ++ ":read"
    ∧ c.write_lock_name n = "lock:" ++ c.key_pfx ++ ":" ++ n ++ ":write"
    ∧ c.read_lock_name n ≠ c.write_lock_name n := by
  refine ⟨?_, ?_, ?_⟩
  · simp [Cache.read_lock_name, Cache.lock_name, String.append_assoc]
  · simp [Cache.write_lock_name, Cache.lock_name, String.append_assoc]
  · intro h
    have hl := congrArg String.length h
    have h5 : (":read" : String).length = 5 := rfl
    have h6 : (":write" : String).length = 6 := rfl
    simp only [Cache.read_lock_name, Cache.write_lock_name, Cache.lock_name,
      Cache.key_pfx, String.length_append, h5, h6] at hl
    omega

/-- C6 witness: the lock keys of the repository's own unit test
(unit_tests/cache/Cache.py lines 50-60), obtained from the theorem at the
concrete instance `c0` and name "some-key". -/
theorem C6_witness :
    c0.read_lock_name "some-key"
      = "lock:" ++ c0.key_pfx ++ ":" ++ "some-key" ++ ":read"
    ∧ c0.write_lock_name "some-key"
      = "lock:" ++ c0.key_pfx ++ ":" ++ "some-key" ++ ":write"
    ∧ c0.read_lock_name "some-key" ≠ c0.write_lock_name "some-key" :=
  C6_lock_keys c0 "some-key"

/-- C7: a single-key `get` of an absent key returns the caller-supplied
default (None when none is supplied) rather than raising an error; a miss is
an ordinary return value. -/
theorem C7_get_miss_default (c : Cache) (st : Store) (k : String) (dflt : PyVal)
    (habs : storeGet st (c.get_key k) = Option.none) :
    c.get st [k] dflt = GetRes.one dflt
    ∧ c.get st [k] PyVal.pynone = GetRes.one PyVal.pynone := by
  constructor <;> simp [Cache.get, Cache.get_one, habs]

/-- C7 witness: a miss on the empty store returns the supplied default, and
None when the default is left at its Python default. -/
theorem C7_witness :
    c0.get [] ["missing"] (PyVal.pystr "dflt") = GetRes.one (PyVal.pystr "dflt")
    ∧ c0.get [] ["missing"] PyVal.pynone = GetRes.one PyVal.pynone :=
  C7_get_miss_default c0 [] "missing" (PyVal.pystr "dflt") rfl

/-- C8: `update(kvs, ttl)` is equivalent to calling `set` with the flattened
key/value pairs of `kvs` and the same ttl (each applies the identical
fallback to the instance default when the ttl is 0/unset): same result, same
store, same actions. -/
theorem C8_update_eq_set (c : Cache) (st : Store) (kvs : List (PyVal × PyVal)) (ttl : Nat) :
    c.update st kvs ttl = c.set st (flatten kvs) ttl := by
  unfold Cache.update Cache.set
  by_cases h : ttl = 0
  · by_cases h2 : c.ttl = 0 <;> simp [h, h2]
  · simp [h]

/-- C9: a batched `get` (two or more keys) with a non-None but falsy default
substitutes nothing: keys that miss yield None in the result list, not the
supplied default, because the substitution is guarded by `if default:`. -/
theorem C9_falsy_default (c : Cache) (st : Store) (keys : List String) (dflt : PyVal)
    (hn : keys.length ≥ 2) (_hd : dflt ≠ PyVal.pynone) (hf : truthy dflt = false) :
    c.get st keys dflt
      = GetRes.many (keys.map (fun k => (storeGet st (c.get_key k)).getD PyVal.pynone)) := by
  have h1 : keys.length > 1 := by omega
  simp [Cache.get, Cache.mget, h1, hf]

/-- C9 witness: two missing keys with the falsy default `""` come back as
None, not as `""`. -/
theorem C9_witness :
    c0.get [] ["a", "b"] (PyVal.pystr "")
      = GetRes.many ((["a", "b"] : List String).map
          (fun k => (storeGet [] (c0.get_key k)).getD PyVal.pynone)) :=
  C9_falsy_default c0 [] ["a", "b"] (PyVal.pystr "")
    (by decide) (fun h => PyVal.noConfusion h) rfl

/-- C10: `setex` on an empty value (None or zero length) while `save_empty`
is false returns 0 immediately: the store is untouched, and the empty trace
shows that no lock is acquired, no store read or write happens, and no
serialization is attempted. -/
theorem C10_setex_skip (c : Cache) (st : Store) (k : String) (v : PyVal) (ttl : Nat)
    (hv : v = PyVal.pynone ∨ (hasLen v = true ∧ pyLen v = 0))
    (hse : c.save_empty = false) :
    c.setex st k v ttl = (PyRes.zero, st, []) := by
  have hs : c._skip v = true := by
    rcases hv with h | ⟨h1, h2⟩
    · simp [Cache._skip, h, isNone, hse]
    · simp [Cache._skip, h1, h2, hse]
  simp [Cache.setex, hs]

/-- C10 witness: `setex` of None under `c0` returns 0 and changes nothing. -/
theorem C10_witness : c0.setex st0 "k2" PyVal.pynone 5 = (PyRes.zero, st0, []) :=
  C10_setex_skip c0 st0 "k2" PyVal.pynone 5 (Or.inl rfl) rfl

/-- C3: writing an empty value (None or zero length) with `save_empty` false
via `set`/`setex` is skipped: the operation returns 0, the trace is empty
(so no serialization of the value is attempted — the emptiness check runs on
the original value before any serializer call), no entry is created, and a
subsequent `get` of a key that was absent stays absent. -/
theorem C3_empty_skipped (c : Cache) (st : Store) (k : String) (v : PyVal) (ttl : Nat)
    (hv : v = PyVal.pynone ∨ (hasLen v = true ∧ pyLen v = 0))
    (hse : c.save_empty = false)
    (habs : storeGet st (c.get_key k) = Option.none) :
    c.setex st k v ttl = (PyRes.zero, st, [])
    ∧ c.set st [PyVal.pystr k, v] ttl = (SetRes.one PyRes.zero, st, [])
    ∧ c.get st [k] PyVal.pynone = GetRes.one PyVal.pynone := by
  have hs : c._skip v = true := by
    rcases hv with h | ⟨h1, h2⟩
    · simp [Cache._skip, h, isNone, hse]
    · simp [Cache._skip, h1, h2, hse]
  refine ⟨?_, ?_, ?_⟩
  · simp [Cache.setex, hs]
  · simp [Cache.set, Cache.setex, hs]
  · simp [Cache.get, Cache.get_one, habs]

/-- C3 witness: storing the empty string under `c0` on the empty store is
skipped by both `setex` and single-pair `set`, and the key stays absent. -/
theorem C3_witness :
    c0.setex [] "k" (PyVal.pystr "") 5 = (PyRes.zero, [], [])
    ∧ c0.set [] [PyVal.pystr "k", PyVal.pystr ""] 5 = (SetRes.one PyRes.zero, [], [])
    ∧ c0.get [] ["k"] PyVal.pynone = GetRes.one PyVal.pynone :=
  C3_empty_skipped c0 [] "k" (PyVal.pystr "") 5 (Or.inr ⟨rfl, rfl⟩) rfl rfl

/-- C2 counterexample: with user key "k" already bound to "old" in `st0`,
`set(k, "new")` (the single-pair form, which delegates to the conditional
`setex`) does not overwrite: the subsequent read still returns "old", not
"new", refuting unconditional overwrite. -/
theorem C2_counterexample :
    c0.get_one (c0.set st0 [PyVal.pystr "k", PyVal.pystr "new"] 0).2.1 "k" PyVal.pynone
      ≠ PyVal.pystr "new" := by
  have h : c0.get_one (c0.set st0 [PyVal.pystr "k", PyVal.pystr "new"] 0).2.1 "k" PyVal.pynone
      = PyVal.pystr "old" := by rfl
  rw [h]
  intro hh
  exact absurd (congrArg (fun x => match x with
    | PyVal.pystr s => s
    | _ => "") hh) (by decide)

/-- C2 amended: single-pair `set(k, v)` delegates to `setex`, which writes
only when the prior read of `k` returns None; in that case a subsequent
`get(k)` returns `v`.  When `k` already reads as a non-None value `w`, the
store is left unchanged and a subsequent `get(k)` still returns `w`. -/
theorem C2_amended (c : Cache) (st : Store) (k : String) (v : PyVal) (ttl : Nat)
    (hskip : c._skip v = false) :
    (c.get_one st k PyVal.pynone = PyVal.pynone →
       c.get_one (c.set st [PyVal.pystr k, v] ttl).2.1 k PyVal.pynone = v)
    ∧ (∀ w, c.get_one st k PyVal.pynone = w → w ≠ PyVal.pynone →
       (c.set st [PyVal.pystr k, v] ttl).2.1 = st
       ∧ c.get_one (c.set st [PyVal.pystr k, v] ttl).2.1 k PyVal.pynone = w) := by
  constructor
  · intro habs
    cases hsg : storeGet st (c.get_key k) with
    | some u =>
      have hu : u = PyVal.pynone := by
        have h2 := habs
        rw [Cache.get_one, hsg] at h2
        exact h2
      subst hu
      simp [Cache.set, Cache.setex, Cache.get_one, hskip, hsg, isNone, storeGet]
    | none =>
      simp [Cache.set, Cache.setex, Cache.get_one, hskip, hsg, isNone, storeGet]
  · intro w hw hne
    refine ⟨?_, ?_⟩ <;>
      simp [Cache.set, Cache.setex, hskip, hw, isNone_eq_false w hne]

/-- C2 amended witness: on the empty store the single-pair `set` writes and
the read returns the new value; on `st0` (key already bound to "old") the
store is unchanged and the read still returns "old". -/
theorem C2_amended_witness :
    c0.get_one (c0.set [] [PyVal.pystr "k", PyVal.pystr "new"] 0).2.1 "k" PyVal.pynone
      = PyVal.pystr "new"
    ∧ (c0.set st0 [PyVal.pystr "k", PyVal.pystr "new"] 0).2.1 = st0 :=
  ⟨(C2_amended c0 [] "k" (PyVal.pystr "new") 0 rfl).1 rfl,
   ((C2_amended c0 st0 "k" (PyVal.pystr "new") 0 rfl).2 (PyVal.pystr "old") rfl
      (fun h => PyVal.noConfusion h)).1⟩

/-- C4: when the memoized key is absent at the double-check and the wrapped
computation raises, the exception propagates unchanged to the caller, the
write lock is still released (the scoped `with` block), and no entry is
written: the store is exactly the state observed under the lock. -/
theorem C4_keep_error (c : Cache) (kttl : Nat) (kpfx : Option String) (ser_args : Bool)
    (fnName : String) (fn : List PyVal → List (String × PyVal) → Except String PyVal)
    (st1 st2 : Store) (args : List PyVal) (kwargs : List (String × PyVal)) (e : String)
    (h1 : storeGet st1 (c.get_key (c.memo_key kpfx ser_args fnName args kwargs))
            = Option.none)
    (h2 : c.get_one st2 (c.memo_key kpfx ser_args fnName args kwargs) PyVal.pynone
            = PyVal.pynone)
    (h3 : fn args kwargs = Except.error e) :
    (c.memoizer kttl kpfx ser_args fnName fn st1 st2 args kwargs).1 = Except.error e
    ∧ (c.memoizer kttl kpfx ser_args fnName fn st1 st2 args kwargs).2.1 = st2
    ∧ Event.releaseLock (c.write_lock_name (c.memo_key kpfx ser_args fnName args kwargs))
        ∈ (c.memoizer kttl kpfx ser_args fnName fn st1 st2 args kwargs).2.2 := by
  have hif : isNone (c.get_one st2 (c.memo_key kpfx ser_args fnName args kwargs)
      PyVal.pynone) = true := by rw [h2]; rfl
  refine ⟨?_, ?_, ?_⟩ <;> simp [Cache.memoizer, h1, hif, h3]

/-- C4 witness: the failing computation `fnErr` under `c0` on the empty
store: the error "boom" propagates, the store stays empty, and the write
lock release appears in the trace. -/
theorem C4_witness :
    (c0.memoizer 0 Option.none true "f" fnErr [] [] [] []).1 = Except.error "boom"
    ∧ (c0.memoizer 0 Option.none true "f" fnErr [] [] [] []).2.1 = ([] : Store)
    ∧ Event.releaseLock (c0.write_lock_name (c0.memo_key Option.none true "f" [] []))
        ∈ (c0.memoizer 0 Option.none true "f" fnErr [] [] [] []).2.2 :=
  C4_keep_error c0 0 Option.none true "f" fnErr [] [] [] [] "boom" rfl rfl rfl

/-- C1: the double-checked read-through protocol of the memoizer.  If the
derived key is present at the unlocked read, the stored value is returned
with no lock acquisition and no invocation of the wrapped function.  If it
is absent, the write lock for the key is acquired and the key re-read under
the lock; the wrapped function runs exactly when that second read still
comes back as None; and when it runs and its result is non-empty, the result
is written with the overridden ttl (falling back to the configured default)
before being returned. -/
theorem C1_keep_protocol (c : Cache) (kttl : Nat) (kpfx : Option String) (ser_args : Bool)
    (fnName : String) (fn : List PyVal → List (String × PyVal) → Except String PyVal)
    (st1 st2 : Store) (args : List PyVal) (kwargs : List (String × PyVal)) :
    (∀ v, storeGet st1 (c.get_key (c.memo_key kpfx ser_args fnName args kwargs))
            = Option.some v →
       c.memoizer kttl kpfx ser_args fnName fn st1 st2 args kwargs
         = (Except.ok v, st1,
            [Event.storeRead (c.get_key (c.memo_key kpfx ser_args fnName args kwargs))]))
    ∧ (storeGet st1 (c.get_key (c.memo_key kpfx ser_args fnName args kwargs))
         = Option.none →
       (∃ rest, (c.memoizer kttl kpfx ser_args fnName fn st1 st2 args kwargs).2.2
          = Event.storeRead (c.get_key (c.memo_key kpfx ser_args fnName args kwargs))
            :: Event.acquireLock
                 (c.write_lock_name (c.memo_key kpfx ser_args fnName args kwargs))
            :: Event.storeRead (c.get_key (c.memo_key kpfx ser_args fnName args kwargs))
            :: rest)
       ∧ (Event.fnCall ∈ (c.memoizer kttl kpfx ser_args fnName fn st1 st2 args kwargs).2.2
            ↔ c.get_one st2 (c.memo_key kpfx ser_args fnName args kwargs) PyVal.pynone
                = PyVal.pynone)
       ∧ ∀ rv, c.get_one st2 (c.memo_key kpfx ser_args fnName args kwargs) PyVal.pynone
                 = PyVal.pynone →
           fn args kwargs = Except.ok rv → c._skip rv = false →
           c.memoizer kttl kpfx ser_args fnName fn st1 st2 args kwargs
             = (Except.ok rv,
                (c.get_key (c.memo_key kpfx ser_args fnName args kwargs), rv,
                  if kttl = 0 then c.ttl else kttl) :: st2,
                [Event.storeRead (c.get_key (c.memo_key kpfx ser_args fnName args kwargs)),
                 Event.acquireLock
                   (c.write_lock_name (c.memo_key kpfx ser_args fnName args kwargs)),
                 Event.storeRead (c.get_key (c.memo_key kpfx ser_args fnName args kwargs)),
                 Event.fnCall, Event.serialize rv,
                 Event.storeWrite (c.get_key (c.memo_key kpfx ser_args fnName args kwargs))
                   rv (if kttl = 0 then c.ttl else kttl),
                 Event.releaseLock
                   (c.write_lock_name (c.memo_key kpfx ser_args fnName args kwargs))])) := by
  constructor
  · intro v hv
    simp [Cache.memoizer, hv]
  · intro hmiss
    by_cases h2 : c.get_one st2 (c.memo_key kpfx ser_args fnName args kwargs) PyVal.pynone
        = PyVal.pynone
    · have hif : isNone (c.get_one st2 (c.memo_key kpfx ser_args fnName args kwargs)
          PyVal.pynone) = true := by rw [h2]; rfl
      refine ⟨?_, ?_, ?_⟩
      · cases hfn : fn args kwargs with
        | error e =>
          refine ⟨[Event.fnCall,
            Event.releaseLock
              (c.write_lock_name (c.memo_key kpfx ser_args fnName args kwargs))], ?_⟩
          simp [Cache.memoizer, hmiss, hif, hfn]
        | ok rv =>
          by_cases hsk : c._skip rv
          · refine ⟨[Event.fnCall,
              Event.releaseLock
                (c.write_lock_name (c.memo_key kpfx ser_args fnName args kwargs))], ?_⟩
            simp [Cache.memoizer, hmiss, hif, hfn, hsk]
          · refine ⟨[Event.fnCall, Event.serialize rv,
              Event.storeWrite (c.get_key (c.memo_key kpfx ser_args fnName args kwargs))
                rv (if kttl = 0 then c.ttl else kttl),
              Event.releaseLock
                (c.write_lock_name (c.memo_key kpfx ser_args fnName args kwargs))], ?_⟩
            simp [Cache.memoizer, hmiss, hif, hfn, hsk]
      · refine ⟨fun _ => h2, fun _ => ?_⟩
        cases hfn : fn args kwargs with
        | error e => simp [Cache.memoizer, hmiss, hif, hfn]
        | ok rv =>
          by_cases hsk : c._skip rv
          · simp [Cache.memoizer, hmiss, hif, hfn, hsk]
          · simp [Cache.memoizer, hmiss, hif, hfn, hsk]
      · intro rv _ hfn hsk
        simp [Cache.memoizer, hmiss, hif, hfn, hsk]
    · have hif : isNone (c.get_one st2 (c.memo_key kpfx ser_args fnName args kwargs)
          PyVal.pynone) = false :=
        isNone_eq_false _ h2
      refine ⟨⟨[Event.releaseLock
          (c.write_lock_name (c.memo_key kpfx ser_args fnName args kwargs))],
          by simp [Cache.memoizer, hmiss, hif]⟩, ?_, ?_⟩
      · simp [Cache.memoizer, hmiss, hif, h2]
      · intro rv h2' _ _
        exact absurd h2' h2

/-- C1 witness: under `c0`, a hit in `stHit` is returned with a single store
read and no lock or function call; and on the empty store the computation of
`fnConst` runs, its non-empty result is written with the override ttl 7, and
the full protocol trace is produced. -/
theorem C1_witness :
    c0.memoizer 7 Option.none true "f" fnConst stHit stHit [] []
      = (Except.ok (PyVal.pystr "v"), stHit,
         [Event.storeRead (c0.get_key (c0.memo_key Option.none true "f" [] []))])
    ∧ c0.memoizer 7 Option.none true "f" fnConst [] [] [] []
      = (Except.ok (PyVal.pystr "computed"),
         (c0.get_key (c0.memo_key Option.none true "f" [] []), PyVal.pystr "computed",
           if (7 : Nat) = 0 then c0.ttl else 7) :: ([] : Store),
         [Event.storeRead (c0.get_key (c0.memo_key Option.none true "f" [] [])),
          Event.acquireLock (c0.write_lock_name (c0.memo_key Option.none true "f" [] [])),
          Event.storeRead (c0.get_key (c0.memo_key Option.none true "f" [] [])),
          Event.fnCall, Event.serialize (PyVal.pystr "computed"),
          Event.storeWrite (c0.get_key (c0.memo_key Option.none true "f" [] []))
            (PyVal.pystr "computed") (if (7 : Nat) = 0 then c0.ttl else 7),
          Event.releaseLock
            (c0.write_lock_name (c0.memo_key Option.none true "f" [] []))]) :=
  ⟨(C1_keep_protocol c0 7 Option.none true "f" fnConst stHit stHit [] []).1
     (PyVal.pystr "v") rfl,
   ((C1_keep_protocol c0 7 Option.none true "f" fnConst [] [] [] []).2 rfl).2.2
     (PyVal.pystr "computed") rfl rfl rfl⟩

/-- C5: the cache key used by the memoizer is the override prefix (when
given, with trailing colons stripped and a colon appended) followed by the
function identity, a colon, and the serializer-encoded (when serialize_args
is set) or stringified `(args, kwargs)` pair; the first store access of any
memoized call reads exactly that key, and two calls with structurally equal
arguments under the same configuration produce identical keys. -/
theorem C5_memo_key (c : Cache) (kttl : Nat) (kpfx : Option String) (ser_args : Bool)
    (fnName : String) (fn : List PyVal → List (String × PyVal) → Except String PyVal)
    (st1 st2 : Store) (args : List PyVal) (kwargs : List (String × PyVal))
    (hp : kpfx = Option.none ∨ ∃ p, kpfx = Option.some p ∧ p ≠ "") :
    c.memo_key kpfx ser_args fnName args kwargs
      = spec_memo_key c kpfx ser_args fnName args kwargs
    ∧ (c.memoizer kttl kpfx ser_args fnName fn st1 st2 args kwargs).2.2.head?
        = Option.some (Event.storeRead
            (c.get_key (spec_memo_key c kpfx ser_args fnName args kwargs)))
    ∧ (∀ args2 kwargs2, args = args2 → kwargs = kwargs2 →
         c.memo_key kpfx ser_args fnName args kwargs
           = c.memo_key kpfx ser_args fnName args2 kwargs2) := by
  have hkey : c.memo_key kpfx ser_args fnName args kwargs
      = spec_memo_key c kpfx ser_args fnName args kwargs := by
    rcases hp with h | ⟨p, hp1, hp2⟩
    · subst h; rfl
    · subst hp1
      have hlen : p.length ≠ 0 := fun hl => hp2 (String.ext (List.length_eq_zero.mp hl))
      simp [Cache.memo_key, spec_memo_key, keep_pfx, Cache.memo_argkey, hlen]
  refine ⟨hkey, ?_, fun args2 kwargs2 ha hk => by rw [ha, hk]⟩
  rw [← hkey]
  cases hst : storeGet st1 (c.get_key (c.memo_key kpfx ser_args fnName args kwargs)) with
  | some v => simp [Cache.memoizer, hst]
  | none =>
    cases hr : isNone (c.get_one st2 (c.memo_key kpfx ser_args fnName args kwargs)
        PyVal.pynone) with
    | true =>
      cases hfn : fn args kwargs with
      | error e => simp [Cache.memoizer, hst, hr, hfn]
      | ok rv =>
        cases hsk : c._skip rv with
        | true => simp [Cache.memoizer, hst, hr, hfn, hsk]
        | false => simp [Cache.memoizer, hst, hr, hfn, hsk]
    | false => simp [Cache.memoizer, hst, hr]

/-- C5 witness: the theorem applied at a prefix override with trailing
colons, serialized arguments and concrete argument lists, together with the
resulting concrete key. -/
theorem C5_witness :
    c0.memo_key (Option.some "pre::") true "f" [PyVal.pyint 5] []
      = spec_memo_key c0 (Option.some "pre::") true "f" [PyVal.pyint 5] []
    ∧ c0.memo_key (Option.some "pre::") true "f" [PyVal.pyint 5] []
      = "pre:f:[[5], \x7b\x7d]" :=
  ⟨(C5_memo_key c0 0 (Option.some "pre::") true "f" fnConst [] [] [PyVal.pyint 5] []
      (Or.inr ⟨"pre::", rfl, by decide⟩)).1,
   rfl⟩

end RedisCache
